import Mathlib

/-!
Shallow embedding of the proof-orchestration core of the op-proposer
(`op-proposer/proposer/prove.go`): the pending-proof processor
(`ProcessPendingProofs`), the request-queue worker (`RequestQueuedProofs`
and the goroutine it launches), the prover-client request bodies
(`RequestSpanProof`, `RequestAggProof`, `RequestKonaProof`,
`RequestProofFromServer`, `GetProofStatus`), and the span chunking loop of
`DeriveNewSpanBatches` (`prove.go` in the derivation file).

Machine integers (`uint64`) are modelled as `Nat` with explicit `% 2^64`
where the source can wrap; unix timestamps (`int64`) as `Int`.  The durable
store (`l.db`, not part of the analysed sources) is modelled by recording
the exact sequence of store calls the code issues, as a trace of `DbOp`
values; HTTP outcomes are passed in as explicit parameters.
-/

namespace Proposer

/-- Proof request type, from `db/ent/proofrequest` (`TypeSPAN`, `TypeAGG`). -/
inductive ProofType where
  | SPAN : ProofType
  | AGG : ProofType
deriving DecidableEq, Repr

/-- The fields of `ent.ProofRequest` that `prove.go` reads. -/
structure ProofRequest where
  id : Nat
  type : ProofType
  startBlock : Nat
  endBlock : Nat
  proverRequestID : String
  proofRequestTime : Int
deriving DecidableEq, Repr

/-- One store mutation issued through `l.db`. -/
inductive DbOp where
  | addProof (id : Nat) (proof : List Nat) : DbOp
  | updateProofStatus (id : Nat) (status : String) : DbOp
  | newEntry (ty : String) (startBlock endBlock : Nat) : DbOp
  | setProverRequestID (id : Nat) (rid : String) : DbOp
  | addL1BlockInfo (startBlock endBlock l1Num : Nat) (l1Hash : List Nat) : DbOp
deriving DecidableEq, Repr

/-- The `for i := 0; i < 2; i++` split loop at the end of the timeout branch of
`ProcessPendingProofs`: emit `NewEntry("SPAN", tmpStart, tmpEnd)`, then
`tmpStart = tmpEnd + 1; tmpEnd = req.EndBlock`. -/
def spanSplitLoop : Nat → Nat → Nat → Nat → List DbOp
  | 0, _, _, _ => []
  | i + 1, tmpStart, tmpEnd, reqEnd =>
      DbOp.newEntry "SPAN" tmpStart tmpEnd ::
        spanSplitLoop i (tmpEnd + 1) reqEnd reqEnd

/-- The split entries created in the timeout branch: `tmpStart := req.StartBlock`,
`tmpEnd := tmpStart + ((req.EndBlock - tmpStart) / 2)`, then two loop
iterations.  `uint64` subtraction agrees with truncated `Nat` subtraction here
because stored ranges satisfy `start ≤ end`. -/
def spanSplitEntries (s e : Nat) : List DbOp :=
  spanSplitLoop 2 s (s + (e - s) / 2) e

/-- Body of the `for _, req := range reqs` loop of `ProcessPendingProofs`
(prove.go:22-68) for one request, as the trace of store calls it issues.
`statusFromProver` and `proof` are what `GetProofStatus` returned (its `err`
is never checked by the source); `now` is `time.Now().Unix()`.  On
`PROOF_FULFILLED` the code calls `AddProof` (which stores the proof and sets
the entry `COMPLETE`).  Independently, on timeout it sets the entry `FAILED`,
re-queues a fresh AGG entry when the request is an AGG, and then runs the
split loop unconditionally — there is no check that the request is a SPAN. -/
def processPendingOne (req : ProofRequest) (statusFromProver : String)
    (proof : List Nat) (now maxProofTime : Int) : List DbOp :=
  (if statusFromProver = "PROOF_FULFILLED" then [DbOp.addProof req.id proof] else [])
    ++
    (if now > req.proofRequestTime + maxProofTime then
      DbOp.updateProofStatus req.id "FAILED" ::
        ((if req.type = ProofType.AGG then
            [DbOp.newEntry "AGG" req.startBlock req.endBlock]
          else [])
          ++ spanSplitEntries req.startBlock req.endBlock)
    else [])

/-- The `NewEntry` calls contained in a trace, in order.  `NewEntry(t, s, e)`
creates a fresh `UNREQ` entry of type `t` over `[s, e]`. -/
def createdNewEntries : List DbOp → List (String × Nat × Nat)
  | [] => []
  | DbOp.newEntry t s e :: rest => (t, s, e) :: createdNewEntries rest
  | _ :: rest => createdNewEntries rest

/-- A JSON value as produced by `json.Marshal` on the request structs of
`prove.go`: a `uint64` number, or an array of base64-encoded byte blobs
(`[][]byte`, kept as the raw byte lists). -/
inductive JVal where
  | num (n : Nat) : JVal
  | bytesArr (bs : List (List Nat)) : JVal
deriving DecidableEq, Repr

/-- Go struct `SpanProofRequest` with json tags `start`, `end`. -/
structure SpanProofRequest where
  start : Nat
  «end» : Nat
deriving DecidableEq, Repr

/-- Go struct `AggProofRequest`; its only field carries json tag `subproofs`. -/
structure AggProofRequest where
  subproofs : List (List Nat)
deriving DecidableEq, Repr

/-- Result of `json.Marshal` on a `SpanProofRequest`: the JSON object as an
ordered field list, keys taken from the struct tags. -/
def SpanProofRequest.marshal (r : SpanProofRequest) : List (String × JVal) :=
  [("start", JVal.num r.start), ("end", JVal.num r.«end»)]

/-- Result of `json.Marshal` on an `AggProofRequest`: a single `subproofs`
field. -/
def AggProofRequest.marshal (r : AggProofRequest) : List (String × JVal) :=
  [("subproofs", JVal.bytesArr r.subproofs)]

/-- Body built by `RequestSpanProof(start, end)` (prove.go:174-185) and handed
to `RequestProofFromServer`. -/
def requestSpanProofBody (start «end» : Nat) : List (String × JVal) :=
  SpanProofRequest.marshal ⟨start, «end»⟩

/-- Body built by `RequestAggProof(start, end)` (prove.go:187-201):
`subproofs := l.db.GetSubproofs(start, end)` (passed in here), wrapped in an
`AggProofRequest` whose only field is `Subproofs` — the L1 checkpoint stored
by `AddL1BlockInfo` is never read and no `head` field exists in the struct. -/
def requestAggProofBody (subproofs : List (List Nat)) : List (String × JVal) :=
  AggProofRequest.mk subproofs |>.marshal

/-- The `prevConfirmedBlock := p.StartBlock - 1` computation of
`RequestKonaProof` (prove.go:134-159), in `uint64` arithmetic: subtraction
wraps modulo `2^64`. -/
def prevConfirmedBlock (p : ProofRequest) : Nat :=
  (p.startBlock + (2 ^ 64 - 1)) % 2 ^ 64

/-- The JSON body submitted for a SPAN entry: `RequestKonaProof` calls
`RequestSpanProof(prevConfirmedBlock, p.EndBlock)`. -/
def requestKonaSpanBody (p : ProofRequest) : List (String × JVal) :=
  requestSpanProofBody (prevConfirmedBlock p) p.endBlock

/-- Go struct `ProofResponse` (json tag `id`). -/
structure ProofResponse where
  proofID : String
deriving DecidableEq, Repr

/-- Go struct `ProofStatus` (json tags `status`, `proof`). -/
structure ProofStatusResp where
  status : String
  proof : List Nat
deriving DecidableEq, Repr

/-- Response handling tail of `RequestProofFromServer` (prove.go:216-233),
parameterised by the outcome of `json.Unmarshal` on the body (`none` means
the body could not be decoded).  The source formats read and decode errors
with `fmt.Errorf` but discards the resulting error values, so on a decode
failure `response` keeps its zero value and the function returns
`(response.ProofID, nil)` — a success. -/
def requestProofFromServerResult (unmarshal : Option ProofResponse) :
    Except String String :=
  let response : ProofResponse :=
    match unmarshal with
    | some r => r
    | none => ⟨""⟩
  Except.ok response.proofID

/-- Response handling tail of `GetProofStatus` (prove.go:252-269), same
discarded-error pattern: on a decode failure the zero-valued `response` is
returned together with a nil error. -/
def getProofStatusResult (unmarshal : Option ProofStatusResp) :
    Except String (String × List Nat) :=
  let response : ProofStatusResp :=
    match unmarshal with
    | some r => r
    | none => ⟨"", []⟩
  Except.ok (response.status, response.proof)

/-- Effects of one worker goroutine launched by `RequestQueuedProofs`
(prove.go:89-105).  `p` is the parameter the goroutine received by value
(`go func(p ent.ProofRequest) {...}(proof)`); `proofAtRun` is the value the
closed-over loop variable `proof` holds when each captured read executes —
under the Go (≤1.21) shared loop variable this may be a later iteration's
entry.  The body calls `UpdateProofStatus(proof.ID, "REQ")`, then
`RequestKonaProof(p)` (whose outcome is `konaResult`; on success it has
called `SetProverRequestID(p.ID, proofId)`), and on failure
`UpdateProofStatus(proof.ID, "FAILED")`. -/
def workerOps (p proofAtRun : ProofRequest) (konaResult : Except String String) :
    List DbOp :=
  DbOp.updateProofStatus proofAtRun.id "REQ" ::
    (match konaResult with
    | Except.ok proofId => [DbOp.setProverRequestID p.id proofId]
    | Except.error _ => [DbOp.updateProofStatus proofAtRun.id "FAILED"])

/-- Per-entry pre-launch step of the `RequestQueuedProofs` loop
(prove.go:87-95): for an AGG entry, `checkpointBlockHash` is consulted (an
error aborts the whole loop), then `l.db.AddL1BlockInfo(...)` is called with
the checkpointed number and hash — but its return value is discarded, so
`addL1BlockInfoResult` does not influence anything — and the worker goroutine
is launched regardless.  The result is the trace of store calls made before
launch together with whether the submission worker was launched. -/
def requestQueuedOne (p : ProofRequest)
    (checkpoint : Except String (Nat × List Nat))
    (_addL1BlockInfoResult : Except String Unit) :
    Except String (List DbOp × Bool) :=
  if p.type = ProofType.AGG then
    match checkpoint with
    | Except.error e => Except.error e
    | Except.ok (blockNumber, blockHash) =>
        Except.ok ([DbOp.addL1BlockInfo p.startBlock p.endBlock blockNumber blockHash],
          true)
  else
    Except.ok ([], true)

/-- Round-to-nearest-even conversion of a natural number to a `float64`
value (53-bit significand), as performed by Go's `float64(x)` conversion on
a `uint64`; the result is returned as the exact natural number the float
denotes.  Exact below `2^53`; above, the value is rounded to the nearest
multiple of `2^(log2 n - 52)`, ties to even significand. -/
def roundF (n : Nat) : Nat :=
  if n < 2 ^ 53 then n
  else
    let s := 2 ^ (Nat.log2 n - 52)
    let q := n / s
    let r := n % s
    if 2 * r < s then q * s
    else if s < 2 * r then (q + 1) * s
    else if q % 2 = 0 then q * s else (q + 1) * s

/-- Model of `uint64(math.Min(float64(a), float64(b)))` from the chunking
loop of `DeriveNewSpanBatches`: both operands are converted to `float64`
(each conversion rounds), the smaller float is taken, and the result is
converted back (exact, since the min of two converted `uint64` values is an
integral float; the back-conversion is in range in every use proved below). -/
def fmin64 (a b : Nat) : Nat :=
  min (roundF a) (roundF b)

/-- The inner chunking loop of `DeriveNewSpanBatches`: starting from
`tmpStart`, compute `maxEnd := tmpStart + maxRange - 1` (as `uint64`, hence
the `% 2^64`; faithful for `tmpStart + maxRange ≥ 1`),
`tmpEnd := uint64(math.Min(float64(maxEnd), float64(end)))`, create the SPAN
entry `[tmpStart, tmpEnd]`, stop when `tmpEnd == end`, else continue from
`tmpEnd + 1`.  The Go loop is unbounded; `fuel` caps the number of
iterations modelled, so the result lists the first at-most-`fuel` entries
the loop creates. -/
def chunkLoop : Nat → Nat → Nat → Nat → List (Nat × Nat)
  | 0, _, _, _ => []
  | fuel + 1, tmpStart, maxRange, e =>
      let maxEnd := (tmpStart + maxRange - 1) % 2 ^ 64
      let tmpEnd := fmin64 maxEnd e
      (tmpStart, tmpEnd) ::
        (if tmpEnd = e then []
         else chunkLoop fuel ((tmpEnd + 1) % 2 ^ 64) maxRange e)

/-- The chunk list exactly covers `[s, e]` with chunks of size at most
`maxRange`: it is nonempty, its first chunk starts at `s`, chunks are
consecutive (each next chunk starts right after the previous one ends),
every chunk `[a, b]` satisfies `a ≤ b` and `b + 1 - a ≤ maxRange`, and the
last chunk ends at `e`. -/
def chainCovers (maxRange s e : Nat) : List (Nat × Nat) → Prop
  | [] => False
  | (a, b) :: rest =>
      a = s ∧ a ≤ b ∧ b + 1 - a ≤ maxRange ∧
        ((rest = [] ∧ b = e) ∨ (b < e ∧ chainCovers maxRange (b + 1) e rest))

/-- Extraction of `NewEntry` calls distributes over trace concatenation. -/
theorem createdNewEntries_append (xs ys : List DbOp) :
    createdNewEntries (xs ++ ys) = createdNewEntries xs ++ createdNewEntries ys := by
  induction xs with
  | nil => rfl
  | cons op rest ih => cases op <;> simp [createdNewEntries, ih]

/-- The float64 conversion is exact below `2^53`. -/
theorem roundF_eq_of_lt {n : Nat} (h : n < 2 ^ 53) : roundF n = n := by
  unfold roundF
  rw [if_pos h]

/-- The float64 conversion never drops below `2^53` on inputs at or above
`2^53`. -/
theorem roundF_ge {n : Nat} (h : 2 ^ 53 ≤ n) : 2 ^ 53 ≤ roundF n := by
  have hn0 : n ≠ 0 := by positivity
  have hlow : 2 ^ Nat.log2 n ≤ n := Nat.log2_self_le hn0
  have hhigh : n < 2 ^ (Nat.log2 n + 1) := Nat.lt_log2_self
  have he53 : 53 ≤ Nat.log2 n := by
    by_contra hcon
    have : Nat.log2 n + 1 ≤ 53 := by omega
    exact absurd (lt_of_lt_of_le hhigh (Nat.pow_le_pow_right (by norm_num) this))
      (not_lt_of_le h)
  have hs_le : Nat.log2 n - 52 ≤ Nat.log2 n := Nat.sub_le _ _
  have hq : 2 ^ 52 ≤ n / 2 ^ (Nat.log2 n - 52) := by
    have hdiv : 2 ^ Nat.log2 n / 2 ^ (Nat.log2 n - 52) = 2 ^ 52 := by
      rw [Nat.pow_div hs_le (by norm_num)]
      congr 1
      omega
    calc 2 ^ 52 = 2 ^ Nat.log2 n / 2 ^ (Nat.log2 n - 52) := hdiv.symm
      _ ≤ n / 2 ^ (Nat.log2 n - 52) := Nat.div_le_div_right hlow
  have hqs : 2 ^ 53 ≤ n / 2 ^ (Nat.log2 n - 52) * 2 ^ (Nat.log2 n - 52) := by
    calc 2 ^ 53 ≤ 2 ^ Nat.log2 n := Nat.pow_le_pow_right (by norm_num) he53
      _ = 2 ^ 52 * 2 ^ (Nat.log2 n - 52) := by
          rw [← Nat.pow_add]
          congr 1
          omega
      _ ≤ n / 2 ^ (Nat.log2 n - 52) * 2 ^ (Nat.log2 n - 52) :=
          Nat.mul_le_mul_right _ hq
  have hqs' : 2 ^ 53 ≤ (n / 2 ^ (Nat.log2 n - 52) + 1) * 2 ^ (Nat.log2 n - 52) := by
    calc 2 ^ 53 ≤ n / 2 ^ (Nat.log2 n - 52) * 2 ^ (Nat.log2 n - 52) := hqs
      _ ≤ (n / 2 ^ (Nat.log2 n - 52) + 1) * 2 ^ (Nat.log2 n - 52) :=
          Nat.mul_le_mul_right _ (Nat.le_succ _)
  unfold roundF
  rw [if_neg (not_lt_of_le h)]
  dsimp only
  split
  · exact hqs
  · split
    · exact hqs'
    · split
      · exact hqs
      · exact hqs'

/-- When the second operand is below `2^53`, the float min of the chunk loop
computes the exact natural minimum: the second conversion is exact and the
first either is exact or stays at or above `2^53`. -/
theorem fmin64_eq_min {a b : Nat} (hb : b < 2 ^ 53) : fmin64 a b = min a b := by
  by_cases ha : a < 2 ^ 53
  · simp [fmin64, roundF_eq_of_lt ha, roundF_eq_of_lt hb]
  · have ha' : 2 ^ 53 ≤ a := le_of_not_lt ha
    have h1 : 2 ^ 53 ≤ roundF a := roundF_ge ha'
    have hba : b ≤ a := le_trans (le_of_lt hb) ha'
    rw [fmin64, roundF_eq_of_lt hb, min_eq_right (le_trans (le_of_lt hb) h1),
      min_eq_right hba]

/-- Invariant of the chunking loop: with no `uint64` overflow
(`e + maxRange ≤ 2^64`), exact float arithmetic (`e < 2^53`), a positive
chunk cap and enough fuel, the loop started at `tmpStart ≤ e` produces a
chunk list that exactly covers `[tmpStart, e]` with chunks of size at most
`maxRange`. -/
theorem chunkLoop_covers (mr e : Nat) (hmr : 1 ≤ mr) (he : e < 2 ^ 53)
    (hov : e + mr ≤ 2 ^ 64) :
    ∀ fuel tmpStart, tmpStart ≤ e → e + 1 - tmpStart ≤ fuel →
      chainCovers mr tmpStart e (chunkLoop fuel tmpStart mr e) := by
  intro fuel
  induction fuel with
  | zero => intro tmpStart hle hfuel; omega
  | succ fuel ih =>
      intro tmpStart hle hfuel
      have hnowrap : tmpStart + mr - 1 < 2 ^ 64 := by omega
      have hmaxEnd : (tmpStart + mr - 1) % 2 ^ 64 = tmpStart + mr - 1 :=
        Nat.mod_eq_of_lt hnowrap
      have htmpEnd : fmin64 ((tmpStart + mr - 1) % 2 ^ 64) e =
          min (tmpStart + mr - 1) e := by
        rw [hmaxEnd, fmin64_eq_min he]
      have hge : tmpStart ≤ min (tmpStart + mr - 1) e := by
        have h1 : tmpStart ≤ tmpStart + mr - 1 := by omega
        exact le_min h1 hle
      have hle' : min (tmpStart + mr - 1) e ≤ e := min_le_right _ _
      have hsize : min (tmpStart + mr - 1) e + 1 - tmpStart ≤ mr := by
        have := min_le_left (tmpStart + mr - 1) e
        omega
      rw [chunkLoop]
      simp only [htmpEnd]
      by_cases hdone : min (tmpStart + mr - 1) e = e
      · rw [if_pos hdone]
        exact ⟨rfl, by omega, by omega, Or.inl ⟨rfl, hdone⟩⟩
      · rw [if_neg hdone]
        have hlt : min (tmpStart + mr - 1) e < e := lt_of_le_of_ne hle' hdone
        have hmod1 : (min (tmpStart + mr - 1) e + 1) % 2 ^ 64 =
            min (tmpStart + mr - 1) e + 1 := by
          apply Nat.mod_eq_of_lt
          have : (2 : Nat) ^ 53 < 2 ^ 64 := by norm_num
          omega
        refine ⟨rfl, hge, hsize, Or.inr ⟨hlt, ?_⟩⟩
        rw [hmod1]
        exact ih (min (tmpStart + mr - 1) e + 1) (by omega) (by omega)

end Proposer

namespace Proposer

/-- C1: the claim says a timed-out AGG request yields exactly one new UNREQ
entry (an AGG over the same range) and no SPAN entries.  Evaluating
`ProcessPendingProofs` on a timed-out REQ AGG `[1001, 1300]` (request time 0,
now 1000, MaxProofTime 100, prover still pending) shows the code also runs
the SPAN split loop: besides the FAILED update and the new AGG it creates
SPAN entries `[1001, 1150]` and `[1151, 1300]`. -/
theorem agg_timeout_also_creates_span_entries :
    processPendingOne ⟨7, ProofType.AGG, 1001, 1300, "rid", 0⟩ "PENDING" [] 1000 100 =
      [DbOp.updateProofStatus 7 "FAILED",
       DbOp.newEntry "AGG" 1001 1300,
       DbOp.newEntry "SPAN" 1001 1150,
       DbOp.newEntry "SPAN" 1151 1300] := by
  decide

/-- C4: the claim says a REQ entry that the prover reports `PROOF_FULFILLED`
but whose request time already exceeds `MaxProofTime` is not moved backward
from COMPLETE to FAILED and gets no recovery entries.  Evaluating
`ProcessPendingProofs` on such an entry (SPAN `[1001, 1100]`, request time 0,
now 1000, MaxProofTime 100, prover fulfilled) shows the code first calls
`AddProof` (entry becomes COMPLETE) and then, because the timeout check is
independent of the fulfilled check, marks the same entry FAILED and creates
two recovery SPAN entries. -/
theorem fulfilled_timed_out_entry_marked_failed_after_complete :
    processPendingOne ⟨42, ProofType.SPAN, 1001, 1100, "rid", 0⟩
        "PROOF_FULFILLED" [1, 2, 3] 1000 100 =
      [DbOp.addProof 42 [1, 2, 3],
       DbOp.updateProofStatus 42 "FAILED",
       DbOp.newEntry "SPAN" 1001 1050,
       DbOp.newEntry "SPAN" 1051 1100] := by
  decide

/-- C5: the claim says a split never produces a range of size 0 and only
happens for ranges of size at least 2.  Evaluating `ProcessPendingProofs` on
a timed-out size-1 SPAN `[5, 5]` shows the code splits unconditionally and
the second created entry is the degenerate `[6, 5]`, whose start exceeds its
end. -/
theorem size_one_span_timeout_creates_degenerate_entry :
    processPendingOne ⟨9, ProofType.SPAN, 5, 5, "rid", 0⟩ "PENDING" [] 1000 100 =
      [DbOp.updateProofStatus 9 "FAILED",
       DbOp.newEntry "SPAN" 5 5,
       DbOp.newEntry "SPAN" 6 5] ∧ 5 < 6 := by
  exact ⟨by decide, by decide⟩

/-- C6: a timed-out SPAN `[s, e]` with `s < e` produces exactly two new
entries, the SPAN `[s, m]` and the SPAN `[m+1, e]` with `m = s + (e-s)/2`,
and the two ranges partition the failed range: their union is `[s, e]` and
they are disjoint. -/
theorem span_timeout_split_exact_cover (req : ProofRequest) (st : String)
    (pf : List Nat) (now mpt : Int)
    (hty : req.type = ProofType.SPAN)
    (hlt : req.startBlock < req.endBlock)
    (htimeout : now > req.proofRequestTime + mpt) :
    createdNewEntries (processPendingOne req st pf now mpt) =
      [("SPAN", req.startBlock, req.startBlock + (req.endBlock - req.startBlock) / 2),
       ("SPAN", req.startBlock + (req.endBlock - req.startBlock) / 2 + 1, req.endBlock)] ∧
    req.startBlock ≤ req.startBlock + (req.endBlock - req.startBlock) / 2 ∧
    req.startBlock + (req.endBlock - req.startBlock) / 2 + 1 ≤ req.endBlock ∧
    Finset.Icc req.startBlock (req.startBlock + (req.endBlock - req.startBlock) / 2) ∪
        Finset.Icc (req.startBlock + (req.endBlock - req.startBlock) / 2 + 1) req.endBlock =
      Finset.Icc req.startBlock req.endBlock ∧
    Disjoint
      (Finset.Icc req.startBlock (req.startBlock + (req.endBlock - req.startBlock) / 2))
      (Finset.Icc (req.startBlock + (req.endBlock - req.startBlock) / 2 + 1) req.endBlock) := by
  have hm2 : req.startBlock + (req.endBlock - req.startBlock) / 2 + 1 ≤ req.endBlock := by
    have := Nat.div_lt_self (Nat.sub_pos_of_lt hlt) (by norm_num : 1 < 2)
    omega
  refine ⟨?_, by omega, hm2, ?_, ?_⟩
  · unfold processPendingOne
    rw [if_pos htimeout, hty]
    rcases eq_or_ne st "PROOF_FULFILLED" with h | h <;>
      simp [h, createdNewEntries_append, createdNewEntries, spanSplitEntries,
        spanSplitLoop]
  · ext x
    simp only [Finset.mem_union, Finset.mem_Icc]
    omega
  · rw [Finset.disjoint_left]
    intro x hx hx'
    simp only [Finset.mem_Icc] at hx hx'
    omega

/-- C6 witness: the split of the timed-out SPAN `[1001, 1100]` of spec
scenario 3 yields exactly `[1001, 1050]` and `[1051, 1100]`. -/
theorem span_timeout_split_exact_cover_witness :
    createdNewEntries
        (processPendingOne ⟨3, ProofType.SPAN, 1001, 1100, "rid", 0⟩ "PENDING" [] 1000 100) =
      [("SPAN", 1001, 1050), ("SPAN", 1051, 1100)] ∧
    (1001 : Nat) ≤ 1050 ∧ (1050 : Nat) + 1 ≤ 1100 ∧
    Finset.Icc (1001 : Nat) 1050 ∪ Finset.Icc 1051 1100 = Finset.Icc 1001 1100 ∧
    Disjoint (Finset.Icc (1001 : Nat) 1050) (Finset.Icc 1051 1100) := by
  have h := span_timeout_split_exact_cover
      ⟨3, ProofType.SPAN, 1001, 1100, "rid", 0⟩ "PENDING" [] 1000 100
      rfl (by decide) (by decide)
  simpa using h

/-- C2 counterexample: the claim says the body posted for a SPAN entry with
stored range `[s, e]` is `{"start": s, "end": e}`.  For the entry
`[5, 10]` the code posts `{"start": 4, "end": 10}` — `RequestKonaProof`
submits `prevConfirmedBlock = p.StartBlock - 1`, not the stored start. -/
theorem span_submit_start_shifted_counterexample :
    requestKonaSpanBody ⟨1, ProofType.SPAN, 5, 10, "", 0⟩ =
      [("start", JVal.num 4), ("end", JVal.num 10)] ∧
    requestKonaSpanBody ⟨1, ProofType.SPAN, 5, 10, "", 0⟩ ≠
      [("start", JVal.num 5), ("end", JVal.num 10)] := by
  constructor
  · decide
  · decide

/-- C2 amended: for every SPAN entry with stored range `[s, e]` and
`1 ≤ s < 2^64`, the worker posts `{"start": s - 1, "end": e}` — the block
before the stored start (the previous confirmed block), while the stored end
is posted unchanged. -/
theorem span_submit_posts_prev_confirmed_block (p : ProofRequest)
    (h1 : 1 ≤ p.startBlock) (h2 : p.startBlock < 2 ^ 64) :
    requestKonaSpanBody p =
      [("start", JVal.num (p.startBlock - 1)), ("end", JVal.num p.endBlock)] := by
  have hmod : (p.startBlock + (2 ^ 64 - 1)) % 2 ^ 64 = p.startBlock - 1 := by
    have hp : (2 : Nat) ^ 64 = 18446744073709551616 := by norm_num
    rw [hp] at h2 ⊢
    omega
  simp only [requestKonaSpanBody, requestSpanProofBody, SpanProofRequest.marshal,
    prevConfirmedBlock]
  rw [hmod]

/-- C2 amended witness: the SPAN entry `[5, 10]` is posted as
`{"start": 4, "end": 10}`. -/
theorem span_submit_posts_prev_confirmed_block_witness :
    (1 : Nat) ≤ 5 ∧ (5 : Nat) < 2 ^ 64 ∧
    requestKonaSpanBody ⟨1, ProofType.SPAN, 5, 10, "", 0⟩ =
      [("start", JVal.num 4), ("end", JVal.num 10)] :=
  ⟨by decide, by norm_num,
    span_submit_posts_prev_confirmed_block ⟨1, ProofType.SPAN, 5, 10, "", 0⟩
      (by decide) (by norm_num)⟩

/-- C3: the claim says the AGG request body contains both the subproofs array
and a `head` field carrying the recorded L1 checkpoint.  Evaluating
`RequestAggProof`'s marshalled body on concrete subproofs shows its only
field is `subproofs`; no `head` field exists (the `AggProofRequest` struct
has no such member and the checkpoint stored by `AddL1BlockInfo` is never
read back). -/
theorem agg_request_body_has_no_head_field :
    requestAggProofBody [[1], [2]] = [("subproofs", JVal.bytesArr [[1], [2]])] ∧
    (requestAggProofBody [[1], [2]]).map Prod.fst = ["subproofs"] ∧
    List.lookup "head" (requestAggProofBody [[1], [2]]) = none := by
  refine ⟨by decide, by decide, by decide⟩

/-- C7: the claim says a malformed response body makes `GetProofStatus` and
`RequestProofFromServer` return an error.  When `json.Unmarshal` fails (the
`none` outcome), both functions instead return success with zero values:
`RequestProofFromServer` yields proof id `""` and `GetProofStatus` yields
status `""` with an empty proof, because the `fmt.Errorf` results are
discarded. -/
theorem malformed_response_reported_as_success :
    requestProofFromServerResult none = Except.ok "" ∧
    getProofStatusResult none = Except.ok ("", []) := by
  exact ⟨rfl, rfl⟩

/-- C8: the claim says every worker performs all its effects on the entry it
was launched for.  For a worker launched for entry 1 that runs after the
shared loop variable `proof` advanced to entry 2, the UNREQ to REQ
transition targets id 2 while the successful submission records the prover
id for entry 1; in the failure path both status updates target id 2 and
entry 1 is never marked FAILED. -/
theorem worker_status_updates_use_shared_loop_variable :
    workerOps ⟨1, ProofType.SPAN, 100, 200, "", 0⟩
        ⟨2, ProofType.SPAN, 300, 400, "", 0⟩ (Except.ok "rid-1") =
      [DbOp.updateProofStatus 2 "REQ", DbOp.setProverRequestID 1 "rid-1"] ∧
    workerOps ⟨1, ProofType.SPAN, 100, 200, "", 0⟩
        ⟨2, ProofType.SPAN, 300, 400, "", 0⟩ (Except.error "transport") =
      [DbOp.updateProofStatus 2 "REQ", DbOp.updateProofStatus 2 "FAILED"] ∧
    (2 : Nat) ≠ 1 := by
  refine ⟨by decide, by decide, by decide⟩

/-- C9: the claim says an AGG submission never proceeds when the checkpoint
recording did not succeed.  Evaluating the pre-launch step on an AGG entry
whose `AddL1BlockInfo` call fails shows the worker is launched anyway: the
call's return value is discarded by the source. -/
theorem agg_submission_launched_despite_checkpoint_write_failure :
    requestQueuedOne ⟨9, ProofType.AGG, 1001, 1300, "", 0⟩
        (Except.ok (777, [171])) (Except.error "db write failed") =
      Except.ok ([DbOp.addL1BlockInfo 1001 1300 777 [171]], true) := by
  rfl

/-- C10 counterexample: the claim quantifies over every
`MaxBlockRangePerSpanProof ≥ 1`, but at `MaxBlockRangePerSpanProof =
2^64 - 1` the `uint64` computation `tmpStart + maxRange - 1` wraps around:
started at `next_block = 1001` with `end = 1350` the loop's very first entry
is the degenerate `[1001, 999]`, whose start exceeds its end, so the created
entries are not consecutive sub-ranges covering `[1001, 1350]`. -/
theorem chunk_loop_overflow_counterexample :
    (1001, 999) ∈ chunkLoop 1 1001 (2 ^ 64 - 1) 1350 ∧
    (chunkLoop 5 1001 (2 ^ 64 - 1) 1350).head? = some (1001, 999) ∧
    ¬ (1001 : Nat) ≤ 999 := by
  refine ⟨by decide, by decide, by decide⟩

/-- C10 amended: for every `next_block ≤ end` and
`MaxBlockRangePerSpanProof ≥ 1` such that the `uint64` bound computation
cannot wrap (`end + MaxBlockRangePerSpanProof ≤ 2^64`) and the `float64`
rounding in `math.Min` is exact (`end < 2^53`), the chunking loop creates
SPAN entries whose ranges are consecutive, each of size at most
`MaxBlockRangePerSpanProof`, and exactly cover `[next_block, end]`. -/
theorem chunk_loop_exact_cover (nextBlock e mr : Nat)
    (hnb : nextBlock ≤ e) (hmr : 1 ≤ mr) (he : e < 2 ^ 53)
    (hov : e + mr ≤ 2 ^ 64) :
    chainCovers mr nextBlock e (chunkLoop (e + 1 - nextBlock) nextBlock mr e) :=
  chunkLoop_covers mr e hmr he hov (e + 1 - nextBlock) nextBlock hnb (le_refl _)

/-- C10 amended witness: with `next_block = 1001`, `end = 1350` and
`MaxBlockRangePerSpanProof = 100` (spec scenario 1) the loop creates exactly
`[1001, 1100]`, `[1101, 1200]`, `[1201, 1300]`, `[1301, 1350]`, and this
list exactly covers `[1001, 1350]`. -/
theorem chunk_loop_exact_cover_witness :
    chunkLoop 350 1001 100 1350 =
      [(1001, 1100), (1101, 1200), (1201, 1300), (1301, 1350)] ∧
    chainCovers 100 1001 1350 (chunkLoop 350 1001 100 1350) :=
  ⟨by decide, chunk_loop_exact_cover 1001 1350 100 (by decide) (by decide)
    (by norm_num) (by norm_num)⟩

end Proposer
